import Mathlib

/-!
Verification of the ChibiOS memory-pool specification claims and of the
`os/various/chrtclib.c` calendar transcoders.

The memory-pool implementation itself (chmempools / NIL pools) is not part of
the source fragment; only its test sequence `test/nil/source/test/test_sequence_005.c`
is.  The pool and guarded-pool operations below are therefore modelled from the
specification text, as flagged in their doc comments.  The `chrtclib.c`
functions are embedded directly from the source.
-/

namespace ChibiOS

/-- Modelled from the spec: a fixed-size-block memory pool (the chmempools
implementation is not under src/).  Blocks are identified by their addresses
(naturals); `free_list` is the chain of free blocks reachable from
`free_list_head` (head first); `provider` is the optional growth capability
`(size, alignment) -> block-or-null`. -/
structure MemoryPool where
  object_size : Nat
  free_list : List Nat
  provider : Option (Nat → Nat → Option Nat)

/-- Modelled from the spec: `init(object_size, provider)` establishes an empty
pool with the given fixed block size and optional provider. -/
def chPoolObjectInit (size : Nat) (provider : Option (Nat → Nat → Option Nat)) :
    MemoryPool :=
  { object_size := size, free_list := [], provider := provider }

/-- Modelled from the spec: `free(block)` pushes the block onto the head of the
free list. -/
def chPoolFree (mp : MemoryPool) (objp : Nat) : MemoryPool :=
  { mp with free_list := objp :: mp.free_list }

/-- Modelled from the spec: `alloc()` pops the head block if the free list is
non-empty; on an empty list it consults the provider (result handed to the
caller verbatim, never entering the free list) or returns null when no
provider is configured.  The provider is called with `(object_size, natural
alignment)`; the natural alignment of a block is its size here. -/
def chPoolAlloc (mp : MemoryPool) : Option Nat × MemoryPool :=
  match mp.free_list with
  | objp :: rest => (some objp, { mp with free_list := rest })
  | [] =>
    match mp.provider with
    | some prov => (prov mp.object_size mp.object_size, mp)
    | none => (none, mp)

/-- Modelled from the spec: `loadArray(base_pointer, count)` treats the base
pointer as the start of `count` contiguous blocks of `object_size` bytes each
and pushes each onto the free list (in array order, via `free`). -/
def chPoolLoadArray (mp : MemoryPool) (base n : Nat) : MemoryPool :=
  match n with
  | 0 => mp
  | Nat.succ k => chPoolLoadArray (chPoolFree mp base) (base + mp.object_size) k

/-- Iterated allocation: the results of `n` consecutive `alloc()` calls
together with the final pool state. -/
def chPoolAllocN (mp : MemoryPool) (n : Nat) : List (Option Nat) × MemoryPool :=
  match n with
  | 0 => ([], mp)
  | Nat.succ k =>
    let r := chPoolAlloc mp
    let rest := chPoolAllocN r.2 k
    (r.1 :: rest.1, rest.2)

theorem chPoolLoadArray_spec : ∀ (n : Nat) (mp : MemoryPool) (base : Nat),
    (chPoolLoadArray mp base n).provider = mp.provider ∧
    (chPoolLoadArray mp base n).free_list.length = mp.free_list.length + n ∧
    (chPoolLoadArray mp base n).object_size = mp.object_size := by
  intro n
  induction n with
  | zero =>
    intro mp base
    exact ⟨rfl, by simp [chPoolLoadArray], rfl⟩
  | succ k ih =>
    intro mp base
    obtain ⟨h1, h2, h3⟩ := ih (chPoolFree mp base) (base + mp.object_size)
    refine ⟨?_, ?_, ?_⟩
    · exact h1
    · show (chPoolLoadArray (chPoolFree mp base) (base + mp.object_size) k).free_list.length = _
      rw [h2]
      simp [chPoolFree]
      omega
    · exact h3

theorem chPoolAlloc_no_provider (mp : MemoryPool) (h : mp.provider = none) :
    chPoolAlloc mp = (mp.free_list.head?, { mp with free_list := mp.free_list.tail }) := by
  obtain ⟨os, fl, pr⟩ := mp
  simp only at h
  subst h
  cases fl <;> rfl

theorem chPoolAllocN_no_provider : ∀ (n : Nat) (mp : MemoryPool),
    mp.provider = none →
    chPoolAllocN mp n =
      ((mp.free_list.take n).map some ++
        List.replicate (n - mp.free_list.length) none,
       { mp with free_list := mp.free_list.drop n }) := by
  intro n
  induction n with
  | zero =>
    intro mp h
    simp [chPoolAllocN]
  | succ k ih =>
    intro mp h
    show (let r := chPoolAlloc mp;
          let rest := chPoolAllocN r.2 k;
          (r.1 :: rest.1, rest.2)) = _
    rw [chPoolAlloc_no_provider mp h]
    obtain ⟨os, fl, pr⟩ := mp
    simp only at h
    subst h
    cases fl with
    | nil =>
      simp only [List.head?_nil, List.tail_nil]
      rw [ih _ rfl]
      simp [List.replicate_succ]
    | cons a rest' =>
      simp only [List.head?_cons, List.tail_cons]
      rw [ih _ rfl]
      simp [List.take_succ_cons, List.drop_succ_cons, Nat.succ_sub_succ]

theorem foldl_chPoolFree_spec : ∀ (bs : List Nat) (mp : MemoryPool),
    (bs.foldl chPoolFree mp).provider = mp.provider ∧
    (bs.foldl chPoolFree mp).free_list.length = mp.free_list.length + bs.length := by
  intro bs
  induction bs with
  | nil => intro mp; simp
  | cons b rest ih =>
    intro mp
    obtain ⟨h1, h2⟩ := ih (chPoolFree mp b)
    refine ⟨?_, ?_⟩
    · simpa [chPoolFree] using h1
    · show (rest.foldl chPoolFree (chPoolFree mp b)).free_list.length = _
      rw [h2]
      simp [chPoolFree]
      omega

/-- Shared exhaustion lemma: on a provider-less pool holding exactly `N` free
blocks, `N` consecutive allocations all succeed and the next one fails. -/
theorem allocN_exhaust (mp : MemoryPool) (hprov : mp.provider = none) (N : Nat)
    (hlen : mp.free_list.length = N) :
    ((chPoolAllocN mp N).1.all Option.isSome = true) ∧
    (chPoolAlloc (chPoolAllocN mp N).2).1 = none := by
  rw [chPoolAllocN_no_provider N mp hprov]
  constructor
  · simp only [hlen, Nat.sub_self, List.replicate_zero, List.append_nil,
      List.all_eq_true]
    intro x hx
    obtain ⟨a, _, rfl⟩ := List.mem_map.mp hx
    rfl
  · have hp2 : (({ mp with free_list := mp.free_list.drop N } : MemoryPool)).provider = none :=
      hprov
    rw [chPoolAlloc_no_provider _ hp2]
    have hdrop : mp.free_list.drop N = [] := by
      apply List.drop_eq_nil_of_le
      omega
    simp [hdrop]

/-- C1: for every memory pool initialized with no provider and loaded with
exactly N blocks via loadArray (none freed since), the first N consecutive
alloc() calls each return a non-null block and the (N+1)-th alloc() returns
null. -/
theorem c1_load_then_exhaust (size base N : Nat) :
    ((chPoolAllocN (chPoolLoadArray (chPoolObjectInit size none) base N) N).1.all
        Option.isSome = true) ∧
    (chPoolAlloc
        (chPoolAllocN (chPoolLoadArray (chPoolObjectInit size none) base N) N).2).1
      = none := by
  apply allocN_exhaust
  · exact (chPoolLoadArray_spec N (chPoolObjectInit size none) base).1
  · have := (chPoolLoadArray_spec N (chPoolObjectInit size none) base).2.1
    simpa [chPoolObjectInit] using this

/-- C2: for every provider-less pool emptied of its N blocks, freeing all N
previously-allocated blocks and allocating again yields exactly N non-null
results followed by a null on the (N+1)-th allocation: free/alloc cycles
neither leak nor duplicate capacity. -/
theorem c2_free_alloc_roundtrip (mp : MemoryPool) (hprov : mp.provider = none) :
    (((chPoolAllocN
        (((chPoolAllocN mp mp.free_list.length).1.filterMap id).foldl chPoolFree
          (chPoolAllocN mp mp.free_list.length).2)
        mp.free_list.length).1.all Option.isSome) = true) ∧
    (chPoolAlloc
        (chPoolAllocN
          (((chPoolAllocN mp mp.free_list.length).1.filterMap id).foldl chPoolFree
            (chPoolAllocN mp mp.free_list.length).2)
          mp.free_list.length).2).1 = none := by
  have hfirst := chPoolAllocN_no_provider mp.free_list.length mp hprov
  rw [hfirst]
  have htake : mp.free_list.take mp.free_list.length = mp.free_list := by
    simp
  have hdrop : mp.free_list.drop mp.free_list.length = [] := by
    apply List.drop_eq_nil_of_le
    omega
  simp only [htake, hdrop, Nat.sub_self, List.replicate_zero, List.append_nil]
  have hblocks : (mp.free_list.map some).filterMap id = mp.free_list := by
    rw [List.filterMap_map]
    simp
  rw [hblocks]
  obtain ⟨hfp, hfl⟩ :=
    foldl_chPoolFree_spec mp.free_list { mp with free_list := [] }
  apply allocN_exhaust
  · exact hfp.trans hprov
  · rw [hfl]
    simp

/-- The provider from test_sequence_005.c that is unable to return more
memory: it ignores its size and alignment arguments and returns NULL. -/
def null_provider (_size _align : Nat) : Option Nat :=
  none

/-- A concrete provider-less pool holding four loaded blocks, mirroring the
mp1 pool of test_sequence_005.c after step 1. -/
def mpExample : MemoryPool :=
  ⟨4, [10, 20, 30, 40], none⟩

/-- Closed instance of the C2 round-trip at a concrete four-block pool. -/
theorem c2_free_alloc_roundtrip_witness :
    (((chPoolAllocN
        (((chPoolAllocN mpExample mpExample.free_list.length).1.filterMap id).foldl
          chPoolFree (chPoolAllocN mpExample mpExample.free_list.length).2)
        mpExample.free_list.length).1.all Option.isSome) = true) ∧
    (chPoolAlloc
        (chPoolAllocN
          (((chPoolAllocN mpExample mpExample.free_list.length).1.filterMap id).foldl
            chPoolFree (chPoolAllocN mpExample mpExample.free_list.length).2)
          mpExample.free_list.length).2).1 = none :=
  c2_free_alloc_roundtrip mpExample rfl

/-- Modelled from the spec: a guarded memory pool composes a MemoryPool with a
count-tracking synchronization primitive `available_count` (the chmempools
implementation is not under src/). -/
structure GuardedMemoryPool where
  pool : MemoryPool
  available_count : Nat

/-- Modelled from the spec: `objectInit(object_size)` is MemoryPool.init with
no provider (the guarded variant supports none), plus resetting
`available_count` to zero. -/
def chGuardedPoolObjectInit (size : Nat) : GuardedMemoryPool :=
  { pool := chPoolObjectInit size none, available_count := 0 }

/-- Modelled from the spec: guarded `loadArray` is MemoryPool.loadArray
followed by incrementing `available_count` by the count. -/
def chGuardedPoolLoadArray (g : GuardedMemoryPool) (base n : Nat) :
    GuardedMemoryPool :=
  { pool := chPoolLoadArray g.pool base n,
    available_count := g.available_count + n }

/-- Modelled from the spec: guarded `free(block)` pushes the block onto the
free list, then increments `available_count`. -/
def chGuardedPoolFree (g : GuardedMemoryPool) (objp : Nat) : GuardedMemoryPool :=
  { pool := chPoolFree g.pool objp,
    available_count := g.available_count + 1 }

/-- Modelled from the spec: `allocTimeout` with the immediate (do-not-wait)
timeout: if `available_count > 0`, decrement it and pop a block from the free
list (one atomic step); else return null without suspending. -/
def chGuardedPoolAllocImmediate (g : GuardedMemoryPool) :
    Option Nat × GuardedMemoryPool :=
  if 0 < g.available_count then
    let r := chPoolAlloc g.pool
    (r.1, { pool := r.2, available_count := g.available_count - 1 })
  else
    (none, g)

/-- Modelled from the spec: `allocTimeout` with a finite duration `d`, run
against a trace `freedAt` giving, for each tick since the call began, the
block (if any) made available by a concurrent free/loadArray signal at that
tick.  The wait resolves SATISFIED at the first signalling tick before the
deadline, receiving that block; otherwise it resolves TIMED_OUT exactly when
`d` has elapsed, returning null.  The result pairs the returned block (or
null) with the elapsed tick count at resolution. -/
def chGuardedPoolAllocFinite (g : GuardedMemoryPool) (d : Nat)
    (freedAt : Nat → Option Nat) : Option Nat × Nat :=
  if 0 < g.available_count then
    ((chGuardedPoolAllocImmediate g).1, 0)
  else
    match (List.range d).find? (fun t => (freedAt t).isSome) with
    | some t => (freedAt t, t)
    | none => (none, d)

/-- Invariant of the guarded pool: `available_count` equals the number of
blocks reachable from the free-list head. -/
def GuardedMemoryPool.countInvariant (g : GuardedMemoryPool) : Prop :=
  g.available_count = g.pool.free_list.length

/-- C3: for every guarded-pool state satisfying the count invariant,
`allocTimeout(TIME_IMMEDIATE)` returns a block when `available_count` is
positive — decrementing the count and popping the free list — and returns
null, leaving the state unchanged and without suspending, when the pool is
empty. -/
theorem c3_alloc_immediate (g : GuardedMemoryPool)
    (hinv : g.countInvariant) :
    (0 < g.available_count →
      ((chGuardedPoolAllocImmediate g).1.isSome = true) ∧
      (chGuardedPoolAllocImmediate g).2.available_count = g.available_count - 1 ∧
      (chGuardedPoolAllocImmediate g).2.pool.free_list = g.pool.free_list.tail) ∧
    (g.available_count = 0 → chGuardedPoolAllocImmediate g = (none, g)) := by
  constructor
  · intro hpos
    have hne : g.pool.free_list ≠ [] := by
      intro hnil
      rw [GuardedMemoryPool.countInvariant, hnil] at hinv
      simp at hinv
      omega
    obtain ⟨b, rest, hbl⟩ := List.exists_cons_of_ne_nil hne
    simp [chGuardedPoolAllocImmediate, if_pos hpos, chPoolAlloc, hbl]
  · intro hzero
    simp [chGuardedPoolAllocImmediate, hzero]

/-- Closed instance of the C3 theorem at a concrete guarded pool holding one
block. -/
theorem c3_alloc_immediate_witness :
    (0 < (GuardedMemoryPool.mk ⟨4, [100], none⟩ 1).available_count →
      ((chGuardedPoolAllocImmediate ⟨⟨4, [100], none⟩, 1⟩).1.isSome = true) ∧
      (chGuardedPoolAllocImmediate ⟨⟨4, [100], none⟩, 1⟩).2.available_count =
        (GuardedMemoryPool.mk ⟨4, [100], none⟩ 1).available_count - 1 ∧
      (chGuardedPoolAllocImmediate ⟨⟨4, [100], none⟩, 1⟩).2.pool.free_list =
        (GuardedMemoryPool.mk ⟨4, [100], none⟩ 1).pool.free_list.tail) ∧
    ((GuardedMemoryPool.mk ⟨4, [100], none⟩ 1).available_count = 0 →
      chGuardedPoolAllocImmediate ⟨⟨4, [100], none⟩, 1⟩ =
        (none, ⟨⟨4, [100], none⟩, 1⟩)) :=
  c3_alloc_immediate ⟨⟨4, [100], none⟩, 1⟩ rfl

/-- C4: when a pool's free list is empty and a provider is configured, alloc()
returns the provider's result verbatim; in particular alloc() on a freshly
initialized pool whose provider always returns null returns null. -/
theorem c4_provider_verbatim :
    (∀ (mp : MemoryPool) (prov : Nat → Nat → Option Nat),
      mp.free_list = [] → mp.provider = some prov →
      (chPoolAlloc mp).1 = prov mp.object_size mp.object_size) ∧
    (∀ size : Nat,
      (chPoolAlloc (chPoolObjectInit size (some null_provider))).1 = none) := by
  constructor
  · intro mp prov hfl hpr
    obtain ⟨os, fl, pr⟩ := mp
    simp only at hfl hpr
    subst hfl
    subst hpr
    rfl
  · intro size
    rfl

/-- Closed instance of the C4 theorem: a concrete empty pool whose provider
declines yields a null allocation. -/
theorem c4_provider_verbatim_witness :
    (chPoolAlloc ⟨4, [], some null_provider⟩).1 =
      null_provider (4 : Nat) (4 : Nat) :=
  c4_provider_verbatim.1 ⟨4, [], some null_provider⟩ null_provider rfl rfl

/-- C5: on a guarded pool that is empty and stays empty (no free or loadArray
signal ever arrives), `allocTimeout` with finite duration `d` returns null,
resolves only once at least `d` ticks have elapsed, and any non-null return
would require either an initially positive count or an actual signal before
the deadline (a spurious wake cannot return without a block). -/
theorem c5_finite_timeout_empty (g : GuardedMemoryPool) (d : Nat)
    (freedAt : Nat → Option Nat)
    (hempty : g.available_count = 0)
    (hnone : ∀ t, freedAt t = none) :
    (chGuardedPoolAllocFinite g d freedAt).1 = none ∧
    d ≤ (chGuardedPoolAllocFinite g d freedAt).2 ∧
    (∀ freedAt' : Nat → Option Nat,
      (chGuardedPoolAllocFinite g d freedAt').1.isSome = true →
      0 < g.available_count ∨ ∃ t, t < d ∧ (freedAt' t).isSome = true) := by
  have hnotpos : ¬ 0 < g.available_count := by omega
  have hfind : (List.range d).find? (fun t => (freedAt t).isSome) = none := by
    rw [List.find?_eq_none]
    intro t _
    simp [hnone t]
  refine ⟨?_, ?_, ?_⟩
  · simp [chGuardedPoolAllocFinite, hnotpos, hfind]
  · simp [chGuardedPoolAllocFinite, hnotpos, hfind]
  · intro freedAt' hsome
    right
    simp only [chGuardedPoolAllocFinite, if_neg hnotpos] at hsome
    cases hfind' : (List.range d).find? (fun t => (freedAt' t).isSome) with
    | none => rw [hfind'] at hsome; simp at hsome
    | some t =>
      rw [hfind'] at hsome
      simp only at hsome
      refine ⟨t, ?_, ?_⟩
      · have := List.mem_of_find?_eq_some hfind'
        exact List.mem_range.mp this
      · exact hsome

/-- Closed instance of the C5 theorem at a concrete empty guarded pool and a
100-tick timeout. -/
theorem c5_finite_timeout_empty_witness :
    (chGuardedPoolAllocFinite (chGuardedPoolObjectInit 4) 100 (fun _ => none)).1
        = none ∧
    100 ≤ (chGuardedPoolAllocFinite (chGuardedPoolObjectInit 4) 100
        (fun _ => none)).2 ∧
    (∀ freedAt' : Nat → Option Nat,
      (chGuardedPoolAllocFinite (chGuardedPoolObjectInit 4) 100 freedAt').1.isSome
          = true →
      0 < (chGuardedPoolObjectInit 4).available_count ∨
        ∃ t, t < 100 ∧ (freedAt' t).isSome = true) :=
  c5_finite_timeout_empty (chGuardedPoolObjectInit 4) 100 (fun _ => none) rfl
    (fun _ => rfl)

/-- C6: the count invariant — `available_count` equals the length of the free
list — is established by objectInit and preserved by loadArray, by free, and
by the atomic acquire step of allocTimeout (its immediate/satisfied
decrement-and-pop). -/
theorem c6_count_invariant_preserved :
    (∀ size : Nat, (chGuardedPoolObjectInit size).countInvariant) ∧
    (∀ (g : GuardedMemoryPool) (base n : Nat), g.countInvariant →
      (chGuardedPoolLoadArray g base n).countInvariant) ∧
    (∀ (g : GuardedMemoryPool) (b : Nat), g.countInvariant →
      (chGuardedPoolFree g b).countInvariant) ∧
    (∀ g : GuardedMemoryPool, g.countInvariant →
      (chGuardedPoolAllocImmediate g).2.countInvariant) := by
  refine ⟨?_, ?_, ?_, ?_⟩
  · intro size
    rfl
  · intro g base n hinv
    rw [GuardedMemoryPool.countInvariant] at hinv ⊢
    simp only [chGuardedPoolLoadArray]
    rw [(chPoolLoadArray_spec n g.pool base).2.1]
    omega
  · intro g b hinv
    rw [GuardedMemoryPool.countInvariant] at hinv ⊢
    simp only [chGuardedPoolFree, chPoolFree, List.length_cons]
    omega
  · intro g hinv
    rw [GuardedMemoryPool.countInvariant] at hinv ⊢
    by_cases hpos : 0 < g.available_count
    · have hne : g.pool.free_list ≠ [] := by
        intro hnil
        rw [hnil] at hinv
        simp at hinv
        omega
      obtain ⟨b, rest, hbl⟩ := List.exists_cons_of_ne_nil hne
      simp only [chGuardedPoolAllocImmediate, if_pos hpos, chPoolAlloc, hbl]
      rw [hbl] at hinv
      simp at hinv ⊢
      omega
    · simp only [chGuardedPoolAllocImmediate, if_neg hpos]
      exact hinv

/-- Closed instance of the C6 theorem at concrete guarded pools. -/
theorem c6_count_invariant_preserved_witness :
    (chGuardedPoolObjectInit 4).countInvariant ∧
    (chGuardedPoolLoadArray (chGuardedPoolObjectInit 4) 1000 4).countInvariant ∧
    (chGuardedPoolFree ⟨⟨4, [100], none⟩, 1⟩ 200).countInvariant ∧
    (chGuardedPoolAllocImmediate ⟨⟨4, [100], none⟩, 1⟩).2.countInvariant :=
  ⟨c6_count_invariant_preserved.1 4,
   c6_count_invariant_preserved.2.1 (chGuardedPoolObjectInit 4) 1000 4
     (c6_count_invariant_preserved.1 4),
   c6_count_invariant_preserved.2.2.1 ⟨⟨4, [100], none⟩, 1⟩ 200 rfl,
   c6_count_invariant_preserved.2.2.2 ⟨⟨4, [100], none⟩, 1⟩ rfl⟩

/-- C7: every failure of alloc and allocTimeout is signalled solely by the one
null value: an empty free list with no provider, a declining provider, and a
timeout expiry all yield the same `none`, indistinguishable from the return
value alone; the allocator's result type admits no other failure signal. -/
theorem c7_null_only_failure :
    (∀ mp : MemoryPool, mp.free_list = [] → mp.provider = none →
      (chPoolAlloc mp).1 = none) ∧
    (∀ (mp : MemoryPool) (prov : Nat → Nat → Option Nat),
      mp.free_list = [] → mp.provider = some prov →
      prov mp.object_size mp.object_size = none →
      (chPoolAlloc mp).1 = none) ∧
    (∀ (g : GuardedMemoryPool) (d : Nat) (freedAt : Nat → Option Nat),
      g.available_count = 0 → (∀ t, freedAt t = none) →
      (chGuardedPoolAllocFinite g d freedAt).1 = none) := by
  refine ⟨?_, ?_, ?_⟩
  · intro mp hfl hpr
    obtain ⟨os, fl, pr⟩ := mp
    simp only at hfl hpr
    subst hfl
    subst hpr
    rfl
  · intro mp prov hfl hpr hdecl
    obtain ⟨os, fl, pr⟩ := mp
    simp only at hfl hpr hdecl
    subst hfl
    subst hpr
    simpa [chPoolAlloc] using hdecl
  · intro g d freedAt hempty hnone
    have hnotpos : ¬ 0 < g.available_count := by omega
    have hfind : (List.range d).find? (fun t => (freedAt t).isSome) = none := by
      rw [List.find?_eq_none]
      intro t _
      simp [hnone t]
    simp [chGuardedPoolAllocFinite, hnotpos, hfind]

/-- Closed instance of the C7 theorem: the three failure scenarios evaluated
at concrete states all yield the same null result. -/
theorem c7_null_only_failure_witness :
    (chPoolAlloc ⟨4, [], none⟩).1 = none ∧
    (chPoolAlloc ⟨4, [], some null_provider⟩).1 = none ∧
    (chGuardedPoolAllocFinite ⟨⟨4, [], none⟩, 0⟩ 100 (fun _ => none)).1 = none :=
  ⟨c7_null_only_failure.1 ⟨4, [], none⟩ rfl rfl,
   c7_null_only_failure.2.1 ⟨4, [], some null_provider⟩ null_provider rfl rfl rfl,
   c7_null_only_failure.2.2 ⟨⟨4, [], none⟩, 0⟩ 100 (fun _ => none) rfl
     (fun _ => rfl)⟩

/-!
Embedding of os/various/chrtclib.c.  C `int` values are modelled as `Int`,
C `uint32_t` values as `Nat` with an explicit `% 2^32` applied wherever the C
computation converts or could wrap.  The RTC_TR/RTC_DR field masks and offsets
are the STM32 RTC time/date register layout from the vendor headers this file
compiles against (those headers are not under src/).
-/

def RTC_TR_PM : Nat := 0x00400000
def RTC_TR_PM_OFFSET : Nat := 22
def RTC_TR_HT : Nat := 0x00300000
def RTC_TR_HT_OFFSET : Nat := 20
def RTC_TR_HU : Nat := 0x000F0000
def RTC_TR_HU_OFFSET : Nat := 16
def RTC_TR_MNT : Nat := 0x00007000
def RTC_TR_MNT_OFFSET : Nat := 12
def RTC_TR_MNU : Nat := 0x00000F00
def RTC_TR_MNU_OFFSET : Nat := 8
def RTC_TR_ST : Nat := 0x00000070
def RTC_TR_ST_OFFSET : Nat := 4
def RTC_TR_SU : Nat := 0x0000000F
def RTC_TR_SU_OFFSET : Nat := 0

def RTC_DR_YT : Nat := 0x00F00000
def RTC_DR_YT_OFFSET : Nat := 20
def RTC_DR_YU : Nat := 0x000F0000
def RTC_DR_YU_OFFSET : Nat := 16
def RTC_DR_WDU : Nat := 0x0000E000
def RTC_DR_WDU_OFFSET : Nat := 13
def RTC_DR_MT : Nat := 0x00001000
def RTC_DR_MT_OFFSET : Nat := 12
def RTC_DR_MU : Nat := 0x00000F00
def RTC_DR_MU_OFFSET : Nat := 8
def RTC_DR_DT : Nat := 0x00000030
def RTC_DR_DT_OFFSET : Nat := 4
def RTC_DR_DU : Nat := 0x0000000F
def RTC_DR_DU_OFFSET : Nat := 0

/-- The broken-down time `struct tm` of time.h; every field is a C int. -/
structure Tm where
  tm_sec : Int
  tm_min : Int
  tm_hour : Int
  tm_mday : Int
  tm_mon : Int
  tm_year : Int
  tm_wday : Int
  tm_yday : Int
  tm_isdst : Int
  deriving DecidableEq

/-- The STM32 calendar RTCTime: the BCD-encoded date and time registers (the
further fields h12/tv_msec play no part in the two transcoders). -/
structure RTCTimeCal where
  tv_date : Nat
  tv_time : Nat
  deriving DecidableEq

/-- C conversion of a uint32_t-valued computation: reduction mod 2^32. -/
def u32 (x : Nat) : Nat := x % 4294967296

/-- C conversion of an int value to uint32_t: reduction mod 2^32. -/
def u32ofInt (x : Int) : Nat := (x % 4294967296).toNat

/-- The tv_date assembly of stm32_rtc_tm2bcd, with the four successive values
taken by the local uint32_t `v` (year-100, weekday with 0 mapped to 7,
month+1, day-of-month) as arguments. -/
def tm2bcd_date (vy vw vm vd : Nat) : Nat :=
  let tv := (0 : Nat)
  let tv := tv ||| (u32 ((vy / 10) <<< RTC_DR_YT_OFFSET) &&& RTC_DR_YT)
  let tv := tv ||| u32 ((vy % 10) <<< RTC_DR_YU_OFFSET)
  let tv := tv ||| (u32 (vw <<< RTC_DR_WDU_OFFSET) &&& RTC_DR_WDU)
  let tv := tv ||| (u32 ((vm / 10) <<< RTC_DR_MT_OFFSET) &&& RTC_DR_MT)
  let tv := tv ||| u32 ((vm % 10) <<< RTC_DR_MU_OFFSET)
  let tv := tv ||| (u32 ((vd / 10) <<< RTC_DR_DT_OFFSET) &&& RTC_DR_DT)
  let tv := tv ||| u32 ((vd % 10) <<< RTC_DR_DU_OFFSET)
  tv

/-- The tv_time assembly of stm32_rtc_tm2bcd, with the three successive values
taken by `v` (hour, minute, second) as arguments. -/
def tm2bcd_time (vh vmn vs : Nat) : Nat :=
  let tv := (0 : Nat)
  let tv := tv ||| (u32 ((vh / 10) <<< RTC_TR_HT_OFFSET) &&& RTC_TR_HT)
  let tv := tv ||| u32 ((vh % 10) <<< RTC_TR_HU_OFFSET)
  let tv := tv ||| (u32 ((vmn / 10) <<< RTC_TR_MNT_OFFSET) &&& RTC_TR_MNT)
  let tv := tv ||| u32 ((vmn % 10) <<< RTC_TR_MNU_OFFSET)
  let tv := tv ||| (u32 ((vs / 10) <<< RTC_TR_ST_OFFSET) &&& RTC_TR_ST)
  let tv := tv ||| u32 ((vs % 10) <<< RTC_TR_SU_OFFSET)
  tv

/-- stm32_rtc_tm2bcd from chrtclib.c: converts a canonicalized broken-down
time to the STM32 BCD register format.  Each assignment to the local uint32_t
`v` converts an int expression, modelled by `u32ofInt`. -/
def stm32_rtc_tm2bcd (timp : Tm) : RTCTimeCal :=
  { tv_date :=
      tm2bcd_date (u32ofInt (timp.tm_year - 100))
        (if timp.tm_wday = 0 then 7 else u32ofInt timp.tm_wday)
        (u32ofInt (timp.tm_mon + 1))
        (u32ofInt timp.tm_mday),
    tv_time :=
      tm2bcd_time (u32ofInt timp.tm_hour) (u32ofInt timp.tm_min)
        (u32ofInt timp.tm_sec) }

/-- stm32_rtc_bcd2tm from chrtclib.c: converts the STM32 BCD register format
to a canonicalized broken-down time, writing through the output pointer whose
prior pointee is `timp` (CH_DBG_ENABLE_CHECKS disabled, so tm_yday is left
untouched). -/
def stm32_rtc_bcd2tm (timp : Tm) (timespec : RTCTimeCal) : Tm :=
  let tv_time := timespec.tv_time
  let tv_date := timespec.tv_date
  let wday0 : Int := (((tv_date &&& RTC_DR_WDU) >>> RTC_DR_WDU_OFFSET : Nat) : Int)
  let wday : Int := if wday0 = 7 then 0 else wday0
  let mday : Int :=
    (((tv_date &&& RTC_DR_DU) >>> RTC_DR_DU_OFFSET : Nat) : Int) +
      (((tv_date &&& RTC_DR_DT) >>> RTC_DR_DT_OFFSET : Nat) : Int) * 10
  let mon : Int :=
    ((((tv_date &&& RTC_DR_MU) >>> RTC_DR_MU_OFFSET : Nat) : Int) +
      (((tv_date &&& RTC_DR_MT) >>> RTC_DR_MT_OFFSET : Nat) : Int) * 10) - 1
  let year : Int :=
    ((((tv_date &&& RTC_DR_YU) >>> RTC_DR_YU_OFFSET : Nat) : Int) +
      (((tv_date &&& RTC_DR_YT) >>> RTC_DR_YT_OFFSET : Nat) : Int) * 10) +
      (2000 - 1900)
  let sec : Int :=
    (((tv_time &&& RTC_TR_SU) >>> RTC_TR_SU_OFFSET : Nat) : Int) +
      (((tv_time &&& RTC_TR_ST) >>> RTC_TR_ST_OFFSET : Nat) : Int) * 10
  let mn : Int :=
    (((tv_time &&& RTC_TR_MNU) >>> RTC_TR_MNU_OFFSET : Nat) : Int) +
      (((tv_time &&& RTC_TR_MNT) >>> RTC_TR_MNT_OFFSET : Nat) : Int) * 10
  let hour : Int :=
    ((((tv_time &&& RTC_TR_HU) >>> RTC_TR_HU_OFFSET : Nat) : Int) +
      (((tv_time &&& RTC_TR_HT) >>> RTC_TR_HT_OFFSET : Nat) : Int) * 10) +
      12 * (((tv_time &&& RTC_TR_PM) >>> RTC_TR_PM_OFFSET : Nat) : Int)
  { timp with
      tm_isdst := -1, tm_wday := wday, tm_mday := mday, tm_mon := mon,
      tm_year := year, tm_sec := sec, tm_min := mn, tm_hour := hour }

theorem shiftRight_and (a b n : Nat) :
    (a &&& b) >>> n = (a >>> n) &&& (b >>> n) := by
  apply Nat.eq_of_testBit_eq
  intro i
  simp

theorem shiftLeft_and (a b n : Nat) :
    (a &&& b) <<< n = (a <<< n) &&& (b <<< n) := by
  apply Nat.eq_of_testBit_eq
  intro i
  simp only [Nat.testBit_shiftLeft, Nat.testBit_and]
  cases h : decide (n ≤ i) <;> simp

theorem and_shift_mask_extract (x w lo : Nat) :
    (x &&& ((2 ^ w - 1) <<< lo)) >>> lo = x / 2 ^ lo % 2 ^ w := by
  rw [shiftRight_and, Nat.shiftLeft_shiftRight, Nat.and_pow_two_sub_one_eq_mod,
    Nat.shiftRight_eq_div_pow]

theorem mask_small (c w lo : Nat) (h : c < 2 ^ w) :
    (c <<< lo) &&& ((2 ^ w - 1) <<< lo) = c <<< lo := by
  rw [← shiftLeft_and, Nat.and_pow_two_sub_one_eq_mod, Nat.mod_eq_of_lt h]

theorem lor_eq_add (a b M : Nat) (hM : ∃ n, M = 2 ^ n) (ha : a % M = 0)
    (hb : b < M) : a ||| b = a + b := by
  obtain ⟨n, rfl⟩ := hM
  obtain ⟨q, rfl⟩ := Nat.dvd_of_mod_eq_zero ha
  exact (Nat.mul_add_lt_is_or hb q).symm

theorem u32_eq_of_lt {x : Nat} (h : x < 4294967296) : u32 x = x :=
  Nat.mod_eq_of_lt h

theorem u32_shift_small (c k : Nat) (hc : c ≤ 99) (hk : k ≤ 20) :
    u32 (c <<< k) = c <<< k := by
  apply u32_eq_of_lt
  rw [Nat.shiftLeft_eq]
  calc c * 2 ^ k ≤ 99 * 2 ^ 20 :=
        Nat.mul_le_mul hc (Nat.pow_le_pow_right (by norm_num) hk)
    _ < 4294967296 := by norm_num

/-- Arithmetic normal form of a BCD date register: year tens/units, weekday,
month tens/units, day tens/units packed at their field offsets. -/
def dateSum (yt yu w mt mu dt du : Nat) : Nat :=
  yt * 1048576 + yu * 65536 + w * 8192 + mt * 4096 + mu * 256 + dt * 16 + du

/-- Arithmetic normal form of a BCD time register: hour, minute and second
tens/units packed at their field offsets (PM flag clear). -/
def timeSum (ht hu mnt mnu st su : Nat) : Nat :=
  ht * 1048576 + hu * 65536 + mnt * 4096 + mnu * 256 + st * 16 + su

theorem RTC_DR_YT_shape : RTC_DR_YT = (2 ^ 4 - 1) <<< 20 := by decide
theorem RTC_DR_YU_shape : RTC_DR_YU = (2 ^ 4 - 1) <<< 16 := by decide
theorem RTC_DR_WDU_shape : RTC_DR_WDU = (2 ^ 3 - 1) <<< 13 := by decide
theorem RTC_DR_MT_shape : RTC_DR_MT = (2 ^ 1 - 1) <<< 12 := by decide
theorem RTC_DR_MU_shape : RTC_DR_MU = (2 ^ 4 - 1) <<< 8 := by decide
theorem RTC_DR_DT_shape : RTC_DR_DT = (2 ^ 2 - 1) <<< 4 := by decide
theorem RTC_DR_DU_shape : RTC_DR_DU = (2 ^ 4 - 1) <<< 0 := by decide
theorem RTC_TR_PM_shape : RTC_TR_PM = (2 ^ 1 - 1) <<< 22 := by decide
theorem RTC_TR_HT_shape : RTC_TR_HT = (2 ^ 2 - 1) <<< 20 := by decide
theorem RTC_TR_HU_shape : RTC_TR_HU = (2 ^ 4 - 1) <<< 16 := by decide
theorem RTC_TR_MNT_shape : RTC_TR_MNT = (2 ^ 3 - 1) <<< 12 := by decide
theorem RTC_TR_MNU_shape : RTC_TR_MNU = (2 ^ 4 - 1) <<< 8 := by decide
theorem RTC_TR_ST_shape : RTC_TR_ST = (2 ^ 3 - 1) <<< 4 := by decide
theorem RTC_TR_SU_shape : RTC_TR_SU = (2 ^ 4 - 1) <<< 0 := by decide

theorem tm2bcd_date_eq (vy vw vm vd : Nat) (hy : vy ≤ 99) (hw1 : 1 ≤ vw)
    (hw : vw ≤ 7) (hm1 : 1 ≤ vm) (hm : vm ≤ 12) (hd : vd ≤ 31) :
    tm2bcd_date vy vw vm vd =
      dateSum (vy / 10) (vy % 10) vw (vm / 10) (vm % 10) (vd / 10) (vd % 10) := by
  simp only [tm2bcd_date, RTC_DR_YT_OFFSET, RTC_DR_YU_OFFSET, RTC_DR_WDU_OFFSET,
    RTC_DR_MT_OFFSET, RTC_DR_MU_OFFSET, RTC_DR_DT_OFFSET, RTC_DR_DU_OFFSET]
  rw [u32_shift_small (vy / 10) 20 (by omega) (by norm_num),
    u32_shift_small (vy % 10) 16 (by omega) (by norm_num),
    u32_shift_small vw 13 (by omega) (by norm_num),
    u32_shift_small (vm / 10) 12 (by omega) (by norm_num),
    u32_shift_small (vm % 10) 8 (by omega) (by norm_num),
    u32_shift_small (vd / 10) 4 (by omega) (by norm_num),
    u32_shift_small (vd % 10) 0 (by omega) (by norm_num)]
  rw [RTC_DR_YT_shape, RTC_DR_WDU_shape, RTC_DR_MT_shape, RTC_DR_DT_shape]
  rw [mask_small (vy / 10) 4 20 (by omega),
    mask_small vw 3 13 (by omega),
    mask_small (vm / 10) 1 12 (by omega),
    mask_small (vd / 10) 2 4 (by omega)]
  simp only [Nat.zero_or, Nat.shiftLeft_eq]
  norm_num
  have e2 : vy / 10 * 1048576 ||| vy % 10 * 65536 =
      vy / 10 * 1048576 + vy % 10 * 65536 :=
    lor_eq_add _ _ 1048576 ⟨20, by norm_num⟩ (by omega) (by omega)
  have e3 : vy / 10 * 1048576 + vy % 10 * 65536 ||| vw * 8192 =
      vy / 10 * 1048576 + vy % 10 * 65536 + vw * 8192 :=
    lor_eq_add _ _ 65536 ⟨16, by norm_num⟩ (by omega) (by omega)
  have e4 : vy / 10 * 1048576 + vy % 10 * 65536 + vw * 8192 ||| vm / 10 * 4096 =
      vy / 10 * 1048576 + vy % 10 * 65536 + vw * 8192 + vm / 10 * 4096 :=
    lor_eq_add _ _ 8192 ⟨13, by norm_num⟩ (by omega) (by omega)
  have e5 : vy / 10 * 1048576 + vy % 10 * 65536 + vw * 8192 + vm / 10 * 4096 |||
        vm % 10 * 256 =
      vy / 10 * 1048576 + vy % 10 * 65536 + vw * 8192 + vm / 10 * 4096 +
        vm % 10 * 256 :=
    lor_eq_add _ _ 4096 ⟨12, by norm_num⟩ (by omega) (by omega)
  have e6 : vy / 10 * 1048576 + vy % 10 * 65536 + vw * 8192 + vm / 10 * 4096 +
        vm % 10 * 256 ||| vd / 10 * 16 =
      vy / 10 * 1048576 + vy % 10 * 65536 + vw * 8192 + vm / 10 * 4096 +
        vm % 10 * 256 + vd / 10 * 16 :=
    lor_eq_add _ _ 256 ⟨8, by norm_num⟩ (by omega) (by omega)
  have e7 : vy / 10 * 1048576 + vy % 10 * 65536 + vw * 8192 + vm / 10 * 4096 +
        vm % 10 * 256 + vd / 10 * 16 ||| vd % 10 =
      vy / 10 * 1048576 + vy % 10 * 65536 + vw * 8192 + vm / 10 * 4096 +
        vm % 10 * 256 + vd / 10 * 16 + vd % 10 :=
    lor_eq_add _ _ 16 ⟨4, by norm_num⟩ (by omega) (by omega)
  rw [e2, e3, e4, e5, e6, e7]
  simp only [dateSum]

theorem tm2bcd_time_eq (vh vmn vs : Nat) (hh : vh ≤ 23) (hmn : vmn ≤ 59)
    (hs : vs ≤ 59) :
    tm2bcd_time vh vmn vs =
      timeSum (vh / 10) (vh % 10) (vmn / 10) (vmn % 10) (vs / 10) (vs % 10) := by
  simp only [tm2bcd_time, RTC_TR_HT_OFFSET, RTC_TR_HU_OFFSET, RTC_TR_MNT_OFFSET,
    RTC_TR_MNU_OFFSET, RTC_TR_ST_OFFSET, RTC_TR_SU_OFFSET]
  rw [u32_shift_small (vh / 10) 20 (by omega) (by norm_num),
    u32_shift_small (vh % 10) 16 (by omega) (by norm_num),
    u32_shift_small (vmn / 10) 12 (by omega) (by norm_num),
    u32_shift_small (vmn % 10) 8 (by omega) (by norm_num),
    u32_shift_small (vs / 10) 4 (by omega) (by norm_num),
    u32_shift_small (vs % 10) 0 (by omega) (by norm_num)]
  rw [RTC_TR_HT_shape, RTC_TR_MNT_shape, RTC_TR_ST_shape]
  rw [mask_small (vh / 10) 2 20 (by omega),
    mask_small (vmn / 10) 3 12 (by omega),
    mask_small (vs / 10) 3 4 (by omega)]
  simp only [Nat.zero_or, Nat.shiftLeft_eq]
  norm_num
  have e2 : vh / 10 * 1048576 ||| vh % 10 * 65536 =
      vh / 10 * 1048576 + vh % 10 * 65536 :=
    lor_eq_add _ _ 1048576 ⟨20, by norm_num⟩ (by omega) (by omega)
  have e3 : vh / 10 * 1048576 + vh % 10 * 65536 ||| vmn / 10 * 4096 =
      vh / 10 * 1048576 + vh % 10 * 65536 + vmn / 10 * 4096 :=
    lor_eq_add _ _ 65536 ⟨16, by norm_num⟩ (by omega) (by omega)
  have e4 : vh / 10 * 1048576 + vh % 10 * 65536 + vmn / 10 * 4096 |||
        vmn % 10 * 256 =
      vh / 10 * 1048576 + vh % 10 * 65536 + vmn / 10 * 4096 + vmn % 10 * 256 :=
    lor_eq_add _ _ 4096 ⟨12, by norm_num⟩ (by omega) (by omega)
  have e5 : vh / 10 * 1048576 + vh % 10 * 65536 + vmn / 10 * 4096 +
        vmn % 10 * 256 ||| vs / 10 * 16 =
      vh / 10 * 1048576 + vh % 10 * 65536 + vmn / 10 * 4096 + vmn % 10 * 256 +
        vs / 10 * 16 :=
    lor_eq_add _ _ 256 ⟨8, by norm_num⟩ (by omega) (by omega)
  have e6 : vh / 10 * 1048576 + vh % 10 * 65536 + vmn / 10 * 4096 +
        vmn % 10 * 256 + vs / 10 * 16 ||| vs % 10 =
      vh / 10 * 1048576 + vh % 10 * 65536 + vmn / 10 * 4096 + vmn % 10 * 256 +
        vs / 10 * 16 + vs % 10 :=
    lor_eq_add _ _ 16 ⟨4, by norm_num⟩ (by omega) (by omega)
  rw [e2, e3, e4, e5, e6]
  simp only [timeSum]

theorem date_extract (yt yu w mt mu dt du : Nat) (hyt : yt ≤ 9) (hyu : yu ≤ 9)
    (hw : w ≤ 7) (hmt : mt ≤ 1) (hmu : mu ≤ 9) (hdt : dt ≤ 3) (hdu : du ≤ 9) :
    ((dateSum yt yu w mt mu dt du &&& RTC_DR_YT) >>> RTC_DR_YT_OFFSET = yt) ∧
    ((dateSum yt yu w mt mu dt du &&& RTC_DR_YU) >>> RTC_DR_YU_OFFSET = yu) ∧
    ((dateSum yt yu w mt mu dt du &&& RTC_DR_WDU) >>> RTC_DR_WDU_OFFSET = w) ∧
    ((dateSum yt yu w mt mu dt du &&& RTC_DR_MT) >>> RTC_DR_MT_OFFSET = mt) ∧
    ((dateSum yt yu w mt mu dt du &&& RTC_DR_MU) >>> RTC_DR_MU_OFFSET = mu) ∧
    ((dateSum yt yu w mt mu dt du &&& RTC_DR_DT) >>> RTC_DR_DT_OFFSET = dt) ∧
    ((dateSum yt yu w mt mu dt du &&& RTC_DR_DU) >>> RTC_DR_DU_OFFSET = du) := by
  refine ⟨?_, ?_, ?_, ?_, ?_, ?_, ?_⟩
  · rw [RTC_DR_YT_shape]
    simp only [RTC_DR_YT_OFFSET]
    rw [and_shift_mask_extract]
    simp only [dateSum]
    norm_num
    omega
  · rw [RTC_DR_YU_shape]
    simp only [RTC_DR_YU_OFFSET]
    rw [and_shift_mask_extract]
    simp only [dateSum]
    norm_num
    omega
  · rw [RTC_DR_WDU_shape]
    simp only [RTC_DR_WDU_OFFSET]
    rw [and_shift_mask_extract]
    simp only [dateSum]
    norm_num
    omega
  · rw [RTC_DR_MT_shape]
    simp only [RTC_DR_MT_OFFSET]
    rw [and_shift_mask_extract]
    simp only [dateSum]
    norm_num
    omega
  · rw [RTC_DR_MU_shape]
    simp only [RTC_DR_MU_OFFSET]
    rw [and_shift_mask_extract]
    simp only [dateSum]
    norm_num
    omega
  · rw [RTC_DR_DT_shape]
    simp only [RTC_DR_DT_OFFSET]
    rw [and_shift_mask_extract]
    simp only [dateSum]
    norm_num
    omega
  · rw [RTC_DR_DU_shape]
    simp only [RTC_DR_DU_OFFSET]
    rw [and_shift_mask_extract]
    simp only [dateSum]
    norm_num
    omega

theorem time_extract (ht hu mnt mnu st su : Nat) (hht : ht ≤ 2) (hhu : hu ≤ 9)
    (hmnt : mnt ≤ 5) (hmnu : mnu ≤ 9) (hst : st ≤ 5) (hsu : su ≤ 9) :
    ((timeSum ht hu mnt mnu st su &&& RTC_TR_HT) >>> RTC_TR_HT_OFFSET = ht) ∧
    ((timeSum ht hu mnt mnu st su &&& RTC_TR_HU) >>> RTC_TR_HU_OFFSET = hu) ∧
    ((timeSum ht hu mnt mnu st su &&& RTC_TR_MNT) >>> RTC_TR_MNT_OFFSET = mnt) ∧
    ((timeSum ht hu mnt mnu st su &&& RTC_TR_MNU) >>> RTC_TR_MNU_OFFSET = mnu) ∧
    ((timeSum ht hu mnt mnu st su &&& RTC_TR_ST) >>> RTC_TR_ST_OFFSET = st) ∧
    ((timeSum ht hu mnt mnu st su &&& RTC_TR_SU) >>> RTC_TR_SU_OFFSET = su) ∧
    ((timeSum ht hu mnt mnu st su &&& RTC_TR_PM) >>> RTC_TR_PM_OFFSET = 0) := by
  refine ⟨?_, ?_, ?_, ?_, ?_, ?_, ?_⟩
  · rw [RTC_TR_HT_shape]
    simp only [RTC_TR_HT_OFFSET]
    rw [and_shift_mask_extract]
    simp only [timeSum]
    norm_num
    omega
  · rw [RTC_TR_HU_shape]
    simp only [RTC_TR_HU_OFFSET]
    rw [and_shift_mask_extract]
    simp only [timeSum]
    norm_num
    omega
  · rw [RTC_TR_MNT_shape]
    simp only [RTC_TR_MNT_OFFSET]
    rw [and_shift_mask_extract]
    simp only [timeSum]
    norm_num
    omega
  · rw [RTC_TR_MNU_shape]
    simp only [RTC_TR_MNU_OFFSET]
    rw [and_shift_mask_extract]
    simp only [timeSum]
    norm_num
    omega
  · rw [RTC_TR_ST_shape]
    simp only [RTC_TR_ST_OFFSET]
    rw [and_shift_mask_extract]
    simp only [timeSum]
    norm_num
    omega
  · rw [RTC_TR_SU_shape]
    simp only [RTC_TR_SU_OFFSET]
    rw [and_shift_mask_extract]
    simp only [timeSum]
    norm_num
    omega
  · rw [RTC_TR_PM_shape]
    simp only [RTC_TR_PM_OFFSET]
    rw [and_shift_mask_extract]
    simp only [timeSum]
    norm_num
    omega

/-- C8: round-trip of the STM32 calendar transcoders — for every broken-down
time with tm_year 100..199, tm_mon 0..11, tm_mday 1..31, tm_hour 0..23,
tm_min and tm_sec 0..59, tm_wday 0..6, encoding with stm32_rtc_tm2bcd and
decoding with stm32_rtc_bcd2tm reproduces tm_year, tm_mon, tm_mday, tm_wday
(0 encoded as 7 and decoded back to 0), tm_hour, tm_min and tm_sec. -/
theorem c8_bcd_roundtrip (t0 t : Tm)
    (hy1 : 100 ≤ t.tm_year) (hy2 : t.tm_year ≤ 199)
    (hmo1 : 0 ≤ t.tm_mon) (hmo2 : t.tm_mon ≤ 11)
    (hd1 : 1 ≤ t.tm_mday) (hd2 : t.tm_mday ≤ 31)
    (hh1 : 0 ≤ t.tm_hour) (hh2 : t.tm_hour ≤ 23)
    (hmn1 : 0 ≤ t.tm_min) (hmn2 : t.tm_min ≤ 59)
    (hs1 : 0 ≤ t.tm_sec) (hs2 : t.tm_sec ≤ 59)
    (hw1 : 0 ≤ t.tm_wday) (hw2 : t.tm_wday ≤ 6) :
    (stm32_rtc_bcd2tm t0 (stm32_rtc_tm2bcd t)).tm_year = t.tm_year ∧
    (stm32_rtc_bcd2tm t0 (stm32_rtc_tm2bcd t)).tm_mon = t.tm_mon ∧
    (stm32_rtc_bcd2tm t0 (stm32_rtc_tm2bcd t)).tm_mday = t.tm_mday ∧
    (stm32_rtc_bcd2tm t0 (stm32_rtc_tm2bcd t)).tm_wday = t.tm_wday ∧
    (stm32_rtc_bcd2tm t0 (stm32_rtc_tm2bcd t)).tm_hour = t.tm_hour ∧
    (stm32_rtc_bcd2tm t0 (stm32_rtc_tm2bcd t)).tm_min = t.tm_min ∧
    (stm32_rtc_bcd2tm t0 (stm32_rtc_tm2bcd t)).tm_sec = t.tm_sec := by
  obtain ⟨Y, hYeq, hYle⟩ : ∃ Y : Nat, t.tm_year = 100 + (Y : Int) ∧ Y ≤ 99 :=
    ⟨(t.tm_year - 100).toNat, by omega, by omega⟩
  obtain ⟨Mo, hMoeq, hMole⟩ : ∃ M : Nat, t.tm_mon = (M : Int) ∧ M ≤ 11 :=
    ⟨t.tm_mon.toNat, by omega, by omega⟩
  obtain ⟨D, hDeq, hDge, hDle⟩ :
      ∃ D : Nat, t.tm_mday = (D : Int) ∧ 1 ≤ D ∧ D ≤ 31 :=
    ⟨t.tm_mday.toNat, by omega, by omega, by omega⟩
  obtain ⟨H, hHeq, hHle⟩ : ∃ H : Nat, t.tm_hour = (H : Int) ∧ H ≤ 23 :=
    ⟨t.tm_hour.toNat, by omega, by omega⟩
  obtain ⟨MN, hMNeq, hMNle⟩ : ∃ M : Nat, t.tm_min = (M : Int) ∧ M ≤ 59 :=
    ⟨t.tm_min.toNat, by omega, by omega⟩
  obtain ⟨S, hSeq, hSle⟩ : ∃ S : Nat, t.tm_sec = (S : Int) ∧ S ≤ 59 :=
    ⟨t.tm_sec.toNat, by omega, by omega⟩
  obtain ⟨W, hWeq, hWle⟩ : ∃ W : Nat, t.tm_wday = (W : Int) ∧ W ≤ 6 :=
    ⟨t.tm_wday.toNat, by omega, by omega⟩
  have hu1 : u32ofInt (t.tm_year - 100) = Y := by
    rw [hYeq]
    simp only [u32ofInt]
    omega
  have hu2 : u32ofInt (t.tm_mon + 1) = Mo + 1 := by
    rw [hMoeq]
    simp only [u32ofInt]
    omega
  have hu3 : u32ofInt t.tm_mday = D := by
    rw [hDeq]
    simp only [u32ofInt]
    omega
  have hu4 : u32ofInt t.tm_hour = H := by
    rw [hHeq]
    simp only [u32ofInt]
    omega
  have hu5 : u32ofInt t.tm_min = MN := by
    rw [hMNeq]
    simp only [u32ofInt]
    omega
  have hu6 : u32ofInt t.tm_sec = S := by
    rw [hSeq]
    simp only [u32ofInt]
    omega
  have hvw1 : 1 ≤ (if W = 0 then 7 else W) := by split <;> omega
  have hvw7 : (if W = 0 then 7 else W) ≤ 7 := by split <;> omega
  have harg : (if t.tm_wday = 0 then (7 : Nat) else u32ofInt t.tm_wday) =
      (if W = 0 then 7 else W) := by
    rw [hWeq]
    by_cases h0 : W = 0
    · simp [h0]
    · rw [if_neg (by omega : ¬ ((W : Int) = 0)), if_neg h0]
      simp only [u32ofInt]
      omega
  have henc : stm32_rtc_tm2bcd t =
      ⟨dateSum (Y / 10) (Y % 10) (if W = 0 then 7 else W) ((Mo + 1) / 10)
         ((Mo + 1) % 10) (D / 10) (D % 10),
       timeSum (H / 10) (H % 10) (MN / 10) (MN % 10) (S / 10) (S % 10)⟩ := by
    simp only [stm32_rtc_tm2bcd, hu1, hu2, hu3, hu4, hu5, hu6, harg]
    rw [tm2bcd_date_eq _ _ _ _ hYle hvw1 hvw7 (by omega) (by omega) (by omega),
      tm2bcd_time_eq _ _ _ (by omega) (by omega) (by omega)]
  obtain ⟨eYT, eYU, eWDU, eMT, eMU, eDT, eDU⟩ :=
    date_extract (Y / 10) (Y % 10) (if W = 0 then 7 else W) ((Mo + 1) / 10)
      ((Mo + 1) % 10) (D / 10) (D % 10) (by omega) (by omega) hvw7 (by omega)
      (by omega) (by omega) (by omega)
  obtain ⟨eHT, eHU, eMNT, eMNU, eST, eSU, ePM⟩ :=
    time_extract (H / 10) (H % 10) (MN / 10) (MN % 10) (S / 10) (S % 10)
      (by omega) (by omega) (by omega) (by omega) (by omega) (by omega)
  rw [henc]
  simp only [stm32_rtc_bcd2tm]
  rw [eYT, eYU, eWDU, eMT, eMU, eDT, eDU, eHT, eHU, eMNT, eMNU, eST, eSU, ePM]
  rw [hYeq, hMoeq, hDeq, hHeq, hMNeq, hSeq, hWeq]
  refine ⟨?_, ?_, ?_, ?_, ?_, ?_, ?_⟩
  · push_cast
    omega
  · push_cast
    omega
  · push_cast
    omega
  · by_cases h0 : W = 0
    · subst h0
      norm_num
    · rw [if_neg h0, if_neg (by omega : ¬ (((W : Nat) : Int) = 7))]
  · push_cast
    omega
  · push_cast
    omega
  · push_cast
    omega

/-- Closed instance of the C8 round-trip at the concrete broken-down time
2016-10-12 (year 116, month index 9), Sunday (wday 0), 23:59:58. -/
theorem c8_bcd_roundtrip_witness :
    (stm32_rtc_bcd2tm ⟨0, 0, 0, 0, 0, 0, 0, 0, 0⟩
        (stm32_rtc_tm2bcd ⟨58, 59, 23, 12, 9, 116, 0, 100, 5⟩)).tm_year =
      (Tm.mk 58 59 23 12 9 116 0 100 5).tm_year ∧
    (stm32_rtc_bcd2tm ⟨0, 0, 0, 0, 0, 0, 0, 0, 0⟩
        (stm32_rtc_tm2bcd ⟨58, 59, 23, 12, 9, 116, 0, 100, 5⟩)).tm_mon =
      (Tm.mk 58 59 23 12 9 116 0 100 5).tm_mon ∧
    (stm32_rtc_bcd2tm ⟨0, 0, 0, 0, 0, 0, 0, 0, 0⟩
        (stm32_rtc_tm2bcd ⟨58, 59, 23, 12, 9, 116, 0, 100, 5⟩)).tm_mday =
      (Tm.mk 58 59 23 12 9 116 0 100 5).tm_mday ∧
    (stm32_rtc_bcd2tm ⟨0, 0, 0, 0, 0, 0, 0, 0, 0⟩
        (stm32_rtc_tm2bcd ⟨58, 59, 23, 12, 9, 116, 0, 100, 5⟩)).tm_wday =
      (Tm.mk 58 59 23 12 9 116 0 100 5).tm_wday ∧
    (stm32_rtc_bcd2tm ⟨0, 0, 0, 0, 0, 0, 0, 0, 0⟩
        (stm32_rtc_tm2bcd ⟨58, 59, 23, 12, 9, 116, 0, 100, 5⟩)).tm_hour =
      (Tm.mk 58 59 23 12 9 116 0 100 5).tm_hour ∧
    (stm32_rtc_bcd2tm ⟨0, 0, 0, 0, 0, 0, 0, 0, 0⟩
        (stm32_rtc_tm2bcd ⟨58, 59, 23, 12, 9, 116, 0, 100, 5⟩)).tm_min =
      (Tm.mk 58 59 23 12 9 116 0 100 5).tm_min ∧
    (stm32_rtc_bcd2tm ⟨0, 0, 0, 0, 0, 0, 0, 0, 0⟩
        (stm32_rtc_tm2bcd ⟨58, 59, 23, 12, 9, 116, 0, 100, 5⟩)).tm_sec =
      (Tm.mk 58 59 23 12 9 116 0 100 5).tm_sec :=
  c8_bcd_roundtrip ⟨0, 0, 0, 0, 0, 0, 0, 0, 0⟩ ⟨58, 59, 23, 12, 9, 116, 0, 100, 5⟩
    (by norm_num) (by norm_num) (by norm_num) (by norm_num) (by norm_num)
    (by norm_num) (by norm_num) (by norm_num) (by norm_num) (by norm_num)
    (by norm_num) (by norm_num) (by norm_num) (by norm_num)

/-- Effect on the pointee of passing a struct tm pointer by value to
rtcGetTimeTm: the callee converts the RTC reading and stores it through the
received pointer value; a NULL pointer (`none`) has no pointee, so nothing is
stored, and the caller's own pointer variable is unaffected either way. -/
def writeThrough (p : Option Tm) (v : Tm) : Option Tm :=
  match p with
  | none => none
  | some _ => some v

/-- rtcGetTimeFat from chrtclib.c: `fattime` starts at 0, the local struct tm
pointer `timp` is initialized to NULL and passed by value to rtcGetTimeTm
(`rtcTm` stands for the broken-down time the RTC read would deliver through
that pointer), after which the fields of `*timp` are read to assemble the FAT
timestamp.  Reads through a NULL pointer yield no value in this total
embedding, so the read of the pointee is a match on the absent pointee.  The
C int-to-uint32_t conversions and int shifts feeding the uint32_t `fattime`
are modelled with `u32ofInt`/`u32`. -/
def rtcGetTimeFat (rtcTm : Tm) : Option Nat :=
  let fattime : Nat := 0
  let timp : Option Tm := none
  let pointee := writeThrough timp rtcTm
  match pointee with
  | none => none
  | some t =>
    let fattime := fattime ||| u32ofInt (t.tm_sec / 2)
    let fattime := fattime ||| u32 (u32ofInt t.tm_min <<< 5)
    let fattime := fattime ||| u32 (u32ofInt t.tm_hour <<< 11)
    let fattime := fattime ||| u32 (u32ofInt t.tm_mday <<< 16)
    let fattime := fattime ||| u32 (u32ofInt (t.tm_mon + 1) <<< 21)
    let fattime := fattime ||| u32 (u32ofInt (t.tm_year - 80) <<< 25)
    some fattime

/-- C9: in rtcGetTimeFat the local struct tm pointer is initialized to NULL,
is not reassigned by the by-value call to rtcGetTimeTm, and is then
dereferenced to read the time fields; in the total embedding these reads are
on an absent value, so for every RTC reading the function's result is none —
never derived from the RTC time. -/
theorem c9_getTimeFat_null_deref : ∀ rtcTm : Tm, rtcGetTimeFat rtcTm = none :=
  fun _ => rfl

/-- Memory visible to the non-calendar rtcGetTimeTm: the caller's struct tm
(the pointee of the pointer argument) and the static buffer owned by
localtime. -/
structure TmMem where
  callerTm : Tm
  staticTm : Tm

/-- Struct tm pointer values in the modelled memory: NULL, the caller's
struct, or localtime's static buffer. -/
inductive TmPtr where
  | null
  | callerBuf
  | staticBuf
  deriving DecidableEq

/-- Pointer dereference into the modelled memory. -/
def TmPtr.read (p : TmPtr) (mem : TmMem) : Option Tm :=
  match p with
  | TmPtr.null => none
  | TmPtr.callerBuf => some mem.callerTm
  | TmPtr.staticBuf => some mem.staticTm

/-- rtcGetTimeTm from chrtclib.c, non-calendar (STM32_RTC_IS_CALENDAR false)
variant: it reads the RTC counter (delivered here as `tv_sec`) and, when the
pointer parameter compares non-NULL, assigns the result of localtime to the
function's local copy of the pointer parameter — localtime (abstracted as
`lt`) fills its static buffer and returns a pointer to that buffer.  The
result pairs the final value of the local pointer (discarded by the void C
function) with the memory after the call. -/
def rtcGetTimeTm_noncal (lt : Int → Tm) (tv_sec : Int) (timp : TmPtr)
    (mem : TmMem) : TmPtr × TmMem :=
  if timp ≠ TmPtr.null then
    (TmPtr.staticBuf, { mem with staticTm := lt tv_sec })
  else
    (timp, mem)

/-- C10: the non-calendar rtcGetTimeTm leaves the caller's output structure
unchanged for every input — the caller's struct tm is untouched whatever
pointer is passed, and in particular dereferencing a pointer to the caller's
struct after the call reads exactly what it held before. -/
theorem c10_noncal_frame (lt : Int → Tm) (tv_sec : Int) (timp : TmPtr)
    (mem : TmMem) :
    ((rtcGetTimeTm_noncal lt tv_sec timp mem).2).callerTm = mem.callerTm ∧
    TmPtr.callerBuf.read ((rtcGetTimeTm_noncal lt tv_sec TmPtr.callerBuf mem).2) =
      TmPtr.callerBuf.read mem := by
  constructor
  · cases timp <;> simp [rtcGetTimeTm_noncal]
  · simp [rtcGetTimeTm_noncal, TmPtr.read]

end ChibiOS
